import Mathlib

set_option maxHeartbeats 1000000

/-!
Shallow embedding of `src/app.py`: a minimal LangGraph agent loop with one
tool (`get_current_time`), an Agent node (`Agent.run`) and a conditional
router (`should_continue`).  Python dicts holding JSON data are embedded as
`JValue`, LangChain messages as the `Message` sum type, the module-level
global namespace consulted by `globals().get(...)` as a `Globals` map, and
the external LLM (`self.llm.invoke`) as a function parameter returning
`Except`, whose `error` case models an exception escaping the call.
-/

/-- JSON-like values, covering the tool arguments and tool outputs that occur
in this program (the one tool returns a flat string-valued dict). -/
inductive JValue
  | str (s : String)
  | obj (fields : List (String × String))
deriving DecidableEq

/-- Argument mapping handed to a tool call (`tool_args` in `Agent.run`). -/
abbrev ArgsDict := List (String × JValue)

/-- Decimal digit character, as produced by CPython when formatting the
decimal digits of a non-negative integer. -/
def decDigit (d : Nat) : Char :=
  match d with
  | 0 => '0'
  | 1 => '1'
  | 2 => '2'
  | 3 => '3'
  | 4 => '4'
  | 5 => '5'
  | 6 => '6'
  | 7 => '7'
  | 8 => '8'
  | _ => '9'

/-- Fuel-driven most-significant-first decimal digit expansion; the fuel makes
the recursion structural so the kernel can evaluate it. -/
def natDigitsFuel : Nat → Nat → List Char
  | 0, n => [decDigit n]
  | fuel + 1, n => if n < 10 then [decDigit n] else natDigitsFuel fuel (n / 10) ++ [decDigit (n % 10)]

/-- Decimal digits of `n`, most significant first (`str(n)` for a `Nat`). -/
def natDigits (n : Nat) : List Char :=
  natDigitsFuel n n

/-- Zero-padding to width `w`, the semantics of CPython `%0wd` formatting used
by `datetime.isoformat` for each calendar component. -/
def zfill (w : Nat) (n : Nat) : List Char :=
  List.replicate (w - (natDigits n).length) '0' ++ natDigits n

/-- A UTC wall-clock instant as produced by
`datetime.datetime.now(datetime.timezone.utc)`: calendar fields plus the
microsecond component that `isoformat(timespec=seconds)` discards. -/
structure UTCTime where
  year : Nat
  month : Nat
  day : Nat
  hour : Nat
  minute : Nat
  second : Nat
  microsecond : Nat
deriving DecidableEq

/-- The date-time body of `isoformat(timespec=seconds)` before the UTC offset:
`YYYY-MM-DDTHH:MM:SS`. -/
def iso_body (t : UTCTime) : List Char :=
  zfill 4 t.year ++ '-' :: (zfill 2 t.month ++ '-' :: (zfill 2 t.day ++
    'T' :: (zfill 2 t.hour ++ ':' :: (zfill 2 t.minute ++ ':' :: zfill 2 t.second))))

/-- The `+00:00` UTC offset suffix appended by `isoformat` for an aware UTC
datetime. -/
def plus_offset : List Char := ['+', '0', '0', ':', '0', '0']

/-- Full output of `isoformat(timespec=seconds)` on an aware UTC datetime. -/
def isoformat_seconds (t : UTCTime) : List Char :=
  iso_body t ++ plus_offset

/-- Fuel-driven embedding of CPython `str.replace(pat, repl)` on character
lists: scans left to right, replacing each non-overlapping occurrence of
`pat`.  The fuel (instantiated with the length of the subject) makes the
recursion structural; one unit of fuel is spent per step and every step
consumes at least one character, so the fuel never runs out in `replaceAll`. -/
def replaceAllFuel (pat repl : List Char) : Nat → List Char → List Char
  | 0, s => s
  | fuel + 1, s =>
    match s with
    | [] => []
    | c :: rest =>
      if pat ≠ [] ∧ s.take pat.length = pat then
        repl ++ replaceAllFuel pat repl fuel (s.drop pat.length)
      else
        c :: replaceAllFuel pat repl fuel rest

/-- CPython `str.replace(pat, repl)` for a non-empty pattern. -/
def replaceAll (pat repl s : List Char) : List Char :=
  replaceAllFuel pat repl s.length s

/-- The `utc` value built by `get_current_time`:
`now(utc).isoformat(timespec=seconds).replace(+00:00, Z)`. -/
def utc_value (t : UTCTime) : String :=
  String.mk (replaceAll plus_offset ['Z'] (isoformat_seconds t))

/-- Embedding of the tool `get_current_time` (zero Python parameters; the
wall-clock instant it reads is made explicit as the argument `t`).  Returns
the dict `\x7b"utc": <ISO-8601 second-precision string with Z suffix>\x7d`. -/
def get_current_time (t : UTCTime) : JValue :=
  JValue.obj [("utc", utc_value t)]

/-- Escape of one character under `json.dumps` (control-character escapes are
omitted: no value produced by this program contains them). -/
def json_escape_char (c : Char) : String :=
  if c = '"' then "\\\"" else if c = '\\' then "\\\\" else String.singleton c

/-- String-body escaping of `json.dumps`. -/
def json_escape (s : String) : String :=
  String.join (s.data.map json_escape_char)

/-- Embedding of `json.dumps` on the `JValue`s this program serializes, with
CPython's default separators. -/
def json_dumps : JValue → String
  | JValue.str s => "\"" ++ json_escape s ++ "\""
  | JValue.obj fs =>
    "\x7b" ++ String.intercalate ", "
      (fs.map (fun kv => "\"" ++ json_escape kv.1 ++ "\": \"" ++ json_escape kv.2 ++ "\"")) ++ "\x7d"

/-- One entry of `response.tool_calls`: the dict read with
`tool_call_data.get(...)` in `Agent.run`.  `none` models an absent key, so
`get` returns Python `None`. -/
structure ToolCallData where
  name : Option String
  args : Option ArgsDict
  id : Option String
deriving DecidableEq

/-- LangChain message union as used by this program: `HumanMessage`,
`AIMessage` (with its `tool_calls` list), `FunctionMessage` (the ToolResult)
and a catch-all for any other `BaseMessage` subtype. -/
inductive Message
  | human (content : String)
  | ai (content : String) (tool_calls : List ToolCallData)
  | function (content : String) (name : String) (tool_call_id : String)
  | other (content : String)
deriving DecidableEq

/-- Whether a message is a ToolResult (`FunctionMessage`). -/
def Message.isToolResult : Message → Bool
  | Message.function _ _ _ => true
  | _ => false

/-- Number of ToolResult messages in a list. -/
def count_tool_results (l : List Message) : Nat :=
  (l.filter Message.isToolResult).length

/-- The model response `self.llm.invoke` yields on success: an `AIMessage`
payload with content and a `tool_calls` list. -/
structure AIResponse where
  content : String
  tool_calls : List ToolCallData
deriving DecidableEq

/-- The `AIMessage` appended to state for a model response. -/
def AIResponse.toMessage (r : AIResponse) : Message :=
  Message.ai r.content r.tool_calls

/-- An entry of the module-level global namespace, as observed by
`globals().get(name)` followed by `callable(...)` and `.invoke(args)`:
either not callable, or callable with the behaviour of its `invoke`
attribute access plus call (an `Except.error` models any exception the
attempt raises). -/
inductive PyGlobal
  | notCallable
  | callable (invoke : ArgsDict → Except String JValue)

/-- The process-wide symbol table `globals()` consulted by `Agent.run`. -/
abbrev Globals := String → Option PyGlobal

/-- Python truthiness of an optional string (`not tool_name` is true exactly
when the value is `None` or the empty string). -/
def truthy : Option String → Bool
  | none => false
  | some s => !(s == "")

/-- `x if x else placeholder`: the placeholder substitution used for
`fn_name` and `fn_tool_call_id` in the invalid-call branch. -/
def truthyOr : Option String → String → String
  | none, ph => ph
  | some s, ph => if s == "" then ph else s

/-- Python `repr` of one `JValue`, used when the whole tool-call dict is
interpolated into the invalid-call error f-string. -/
def repr_jvalue : JValue → String
  | JValue.str s => "\x27" ++ s ++ "\x27"
  | JValue.obj fs =>
    "\x7b" ++ String.intercalate ", "
      (fs.map (fun kv => "\x27" ++ kv.1 ++ "\x27: \x27" ++ kv.2 ++ "\x27")) ++ "\x7d"

/-- Python `repr` of the `args` dict. -/
def repr_args (a : ArgsDict) : String :=
  "\x7b" ++ String.intercalate ", "
    (a.map (fun kv => "\x27" ++ kv.1 ++ "\x27: " ++ repr_jvalue kv.2)) ++ "\x7d"

/-- Interpolation of `tool_call_data` into the invalid-call error message
(`f"... : \x7btool_call_data\x7d"`), with the dict keys rendered in the
canonical order name, args, id and absent keys omitted. -/
def repr_tool_call (tc : ToolCallData) : String :=
  "\x7b" ++ String.intercalate ", "
    ((match tc.name with
      | some s => ["\x27name\x27: \x27" ++ s ++ "\x27"]
      | none => []) ++
     (match tc.args with
      | some a => ["\x27args\x27: " ++ repr_args a]
      | none => []) ++
     (match tc.id with
      | some s => ["\x27id\x27: \x27" ++ s ++ "\x27"]
      | none => [])) ++ "\x7d"

/-- The loop body of `Agent.run` for one element of `response.tool_calls`:
validates name and id, resolves the name with `globals().get`, checks
`callable`, invokes, and converts any exception into an error
`FunctionMessage`.  Every branch produces exactly one `FunctionMessage`. -/
def process_tool_call (G : Globals) (tc : ToolCallData) : Message :=
  if !truthy tc.name || !truthy tc.id then
    Message.function
      ("Некорректные данные вызова инструмента (отсутствует имя или id): " ++ repr_tool_call tc)
      (truthyOr tc.name "unknown_tool_name_in_error")
      (truthyOr tc.id "unknown_tool_call_id_in_error")
  else
    match G (tc.name.getD "") with
    | some (PyGlobal.callable f) =>
      match f (tc.args.getD []) with
      | Except.ok tool_output =>
        Message.function (json_dumps tool_output) (tc.name.getD "") (tc.id.getD "")
      | Except.error e =>
        Message.function ("Ошибка при выполнении инструмента " ++ tc.name.getD "" ++ ": " ++ e)
          (tc.name.getD "") (tc.id.getD "")
    | _ =>
      Message.function
        ("Ошибка: Инструмент с именем \x27" ++ tc.name.getD "" ++ "\x27 не найден или не является функцией.")
        (tc.name.getD "") (tc.id.getD "")

/-- Embedding of `Agent.run`: invoke the model on the current messages (the
external `llm` is a parameter; its `Except.error` case is an exception
escaping `self.llm.invoke`), then either return just the response message, or
the response followed by one `FunctionMessage` per tool call.  The returned
list is the `messages` delta of the Python return value. -/
def Agent.run (G : Globals) (llm : List Message → Except String AIResponse)
    (state : List Message) : Except String (List Message) :=
  match llm state with
  | Except.error e => Except.error e
  | Except.ok response =>
    if response.tool_calls.isEmpty then
      Except.ok [response.toMessage]
    else
      Except.ok (response.toMessage :: response.tool_calls.map (process_tool_call G))

/-- One whole Agent node step as seen through the graph state: LangGraph's
`operator.add` reducer appends the delta returned by `Agent.run` to the
existing message sequence. -/
def agent_step (G : Globals) (llm : List Message → Except String AIResponse)
    (state : List Message) : Except String (List Message) :=
  (Agent.run G llm state).map (fun delta => state ++ delta)

/-- Return value of the conditional router: loop back to the agent node or
take the END edge. -/
inductive Route
  | agent
  | END
deriving DecidableEq

/-- Embedding of `should_continue`: inspect `state["messages"][-1]`
(`none` models the IndexError on an empty sequence): a `FunctionMessage`
routes back to the agent, an `AIMessage` routes to the agent exactly when its
`tool_calls` list is non-empty, and any other message type routes to END. -/
def should_continue (messages : List Message) : Option Route :=
  match messages.getLast? with
  | none => none
  | some last =>
    some (match last with
      | Message.function _ _ _ => Route.agent
      | Message.ai _ tool_calls => if tool_calls.isEmpty then Route.END else Route.agent
      | _ => Route.END)

/-- The CPython exception text raised when a callable module global that is
not a LangChain tool is driven through `.invoke(args)`; the precise runtime
text is abstracted, only its occurrence in the error content matters. -/
def exc_message (n : String) : String :=
  "object \x27" ++ n ++ "\x27 has no usable attribute \x27invoke\x27"

/-- Behaviour of invoking a callable module global that is not a tool. -/
def non_tool_invoke (n : String) : ArgsDict → Except String JValue :=
  fun _ => Except.error (exc_message n)

/-- The module-level global namespace of `app.py` once loaded: imported
modules are not callable; imported classes, typing constructs and defined
functions are callable but their `.invoke` attempt raises; the one `@tool`
value `get_current_time` is callable and its `invoke` runs the tool (reading
the ambient clock `t`); dunder entries are omitted. -/
def module_globals (t : UTCTime) : Globals := fun n =>
  if n = "get_current_time" then
    some (PyGlobal.callable (fun _ => Except.ok (get_current_time t)))
  else if n ∈ ["datetime", "operator", "json", "os", "END", "app"] then
    some PyGlobal.notCallable
  else if n ∈ ["Annotated", "Sequence", "TypedDict", "AIMessage", "BaseMessage",
      "FunctionMessage", "HumanMessage", "tool", "ChatGoogleGenerativeAI",
      "StateGraph", "load_dotenv", "AgentState", "Agent", "create_graph"] then
    some (PyGlobal.callable (non_tool_invoke n))
  else
    none

/-- Modelled from the spec: §4.1 and §4.3b describe resolution of the call
name against the Tool Registry, the only registered tool being
`get_current_time` (the Agent's `self.tools` list); an unregistered name
yields the not-found error ToolResult.  This registry-based resolution is
absent from the source, which resolves via `globals().get`; it is defined
here only to be compared with `process_tool_call`. -/
def process_tool_call_spec (t : UTCTime) (tc : ToolCallData) : Message :=
  if !truthy tc.name || !truthy tc.id then
    Message.function
      ("Некорректные данные вызова инструмента (отсутствует имя или id): " ++ repr_tool_call tc)
      (truthyOr tc.name "unknown_tool_name_in_error")
      (truthyOr tc.id "unknown_tool_call_id_in_error")
  else if tc.name.getD "" = "get_current_time" then
    Message.function (json_dumps (get_current_time t)) (tc.name.getD "") (tc.id.getD "")
  else
    Message.function
      ("Ошибка: Инструмент с именем \x27" ++ tc.name.getD "" ++ "\x27 не найден или не является функцией.")
      (tc.name.getD "") (tc.id.getD "")

/-- No decimal digit character is the plus sign. -/
theorem decDigit_ne_plus (d : Nat) : decDigit d ≠ '+' := by
  unfold decDigit
  split <;> decide

/-- No character of a fuel-driven digit expansion is the plus sign. -/
theorem natDigitsFuel_no_plus (fuel : Nat) : ∀ n, ∀ c ∈ natDigitsFuel fuel n, c ≠ '+' := by
  induction fuel with
  | zero =>
    intro n c hc
    simp only [natDigitsFuel, List.mem_singleton] at hc
    subst hc
    exact decDigit_ne_plus n
  | succ fuel ih =>
    intro n c hc
    simp only [natDigitsFuel] at hc
    by_cases h : n < 10
    · rw [if_pos h] at hc
      simp only [List.mem_singleton] at hc
      subst hc
      exact decDigit_ne_plus n
    · rw [if_neg h] at hc
      rcases List.mem_append.mp hc with h1 | h1
      · exact ih (n / 10) c h1
      · simp only [List.mem_singleton] at h1
        subst h1
        exact decDigit_ne_plus (n % 10)

/-- No character of a zero-padded decimal rendering is the plus sign. -/
theorem zfill_no_plus (w n : Nat) : ∀ c ∈ zfill w n, c ≠ '+' := by
  intro c hc
  rcases List.mem_append.mp hc with h1 | h1
  · rw [List.eq_of_mem_replicate h1]
    decide
  · exact natDigitsFuel_no_plus n n c h1

/-- The date-time body of the ISO rendering contains no plus sign. -/
theorem iso_body_no_plus (t : UTCTime) : '+' ∉ iso_body t := by
  intro hc
  unfold iso_body at hc
  simp only [List.mem_append, List.mem_cons] at hc
  rcases hc with h | h | h | h | h | h | h | h | h | h | h
  all_goals first
    | exact zfill_no_plus _ _ '+' h rfl
    | exact absurd h (by decide)

/-- Exhausting step: the replace scan of the bare `+00:00` suffix emits the
replacement and stops. -/
theorem replaceAllFuel_nil (pat repl : List Char) : ∀ fuel, replaceAllFuel pat repl fuel [] = [] := by
  intro fuel
  cases fuel <;> rfl

/-- On a subject of the form `s ++ +00:00` where `s` is plus-free, the
replace scan rewrites exactly the offset suffix to `Z`, given enough fuel. -/
theorem replaceAllFuel_offset (s : List Char) (hs : '+' ∉ s) :
    ∀ fuel, s.length + 1 ≤ fuel →
      replaceAllFuel plus_offset ['Z'] fuel (s ++ plus_offset) = s ++ ['Z'] := by
  induction s with
  | nil =>
    intro fuel hfuel
    match fuel, hfuel with
    | f + 1, _ =>
      show replaceAllFuel plus_offset ['Z'] (f + 1) ([] ++ plus_offset) = [] ++ ['Z']
      rw [List.nil_append, List.nil_append]
      rw [show replaceAllFuel plus_offset ['Z'] (f + 1) plus_offset =
          'Z' :: replaceAllFuel plus_offset ['Z'] f [] from rfl]
      rw [replaceAllFuel_nil]
  | cons c s ih =>
    intro fuel hfuel
    match fuel, hfuel with
    | f + 1, hfuel =>
      have hc : c ≠ '+' := fun h => hs (by simp [h])
      have hs' : '+' ∉ s := fun h => hs (List.mem_cons_of_mem c h)
      rw [List.cons_append, replaceAllFuel]
      rw [if_neg]
      · rw [ih hs' f (by simpa using hfuel)]
        simp
      · rintro ⟨-, htake⟩
        have : ((c :: (s ++ plus_offset)).take plus_offset.length).head? = some c := by
          simp [plus_offset]
        rw [htake] at this
        simp [plus_offset] at this
        exact hc this.symm

/-- Character-level description of the `utc` value: the ISO date-time body
followed by the `Z` suffix. -/
theorem utc_value_data (t : UTCTime) : (utc_value t).data = iso_body t ++ ['Z'] := by
  show replaceAll plus_offset ['Z'] (isoformat_seconds t) = iso_body t ++ ['Z']
  unfold replaceAll isoformat_seconds
  exact replaceAllFuel_offset (iso_body t) (iso_body_no_plus t) _
    (by simp [plus_offset])

/-- Every branch of the per-call loop body yields a `FunctionMessage`. -/
theorem process_tool_call_shape (G : Globals) (tc : ToolCallData) :
    ∃ c n i, process_tool_call G tc = Message.function c n i := by
  unfold process_tool_call
  split
  · exact ⟨_, _, _, rfl⟩
  · split
    · split
      · exact ⟨_, _, _, rfl⟩
      · exact ⟨_, _, _, rfl⟩
    · exact ⟨_, _, _, rfl⟩

/-- Every branch of the per-call loop body yields a ToolResult. -/
theorem process_tool_call_isToolResult (G : Globals) (tc : ToolCallData) :
    (process_tool_call G tc).isToolResult = true := by
  obtain ⟨c, n, i, h⟩ := process_tool_call_shape G tc
  rw [h]
  rfl

/-- The last element of a mapped list is the image of the last element. -/
theorem getLast?_map {α β : Type} (f : α → β) :
    ∀ l : List α, (l.map f).getLast? = l.getLast?.map f := by
  intro l
  induction l with
  | nil => rfl
  | cons a l ih =>
    cases l with
    | nil => rfl
    | cons b l => simpa using ih

/-- A non-empty list all of whose members satisfy a property has a last
element satisfying it. -/
theorem getLast?_cons_of_all {α : Type} (p : α → Prop) :
    ∀ (xs : List α) (x : α), (∀ m ∈ x :: xs, p m) →
      ∃ m, (x :: xs).getLast? = some m ∧ p m := by
  intro xs
  induction xs with
  | nil =>
    intro x h
    exact ⟨x, rfl, h x (by simp)⟩
  | cons y ys ih =>
    intro x h
    obtain ⟨m, hm, hp⟩ := ih y (fun m hm => h m (List.mem_cons_of_mem x hm))
    exact ⟨m, by rw [List.getLast?_cons_cons]; exact hm, hp⟩

/-- The agent branch that appended tool results routes back to the agent:
the last message of the updated state is the last produced ToolResult. -/
theorem should_continue_after_results (G : Globals) (state : List Message)
    (r : Message) (calls : List ToolCallData) (hne : calls ≠ []) :
    should_continue (state ++ r :: calls.map (process_tool_call G)) = some Route.agent := by
  cases hmap : calls.map (process_tool_call G) with
  | nil => exact absurd (List.map_eq_nil_iff.mp hmap) hne
  | cons x xs =>
    have hall : ∀ m ∈ x :: xs, ∃ c n i, m = Message.function c n i := by
      intro m hm
      rw [← hmap] at hm
      obtain ⟨tc', -, htc'⟩ := List.mem_map.mp hm
      obtain ⟨c, n, i, h⟩ := process_tool_call_shape G tc'
      exact ⟨c, n, i, by rw [← htc', h]⟩
    obtain ⟨m, hm, c, n, i, hmf⟩ := getLast?_cons_of_all _ xs x hall
    simp only [should_continue]
    rw [List.getLast?_append_cons, List.getLast?_cons_cons, hm, hmf]

/-- For a validated call whose name resolves to a callable global, the loop
body reduces to the outcome of the invocation attempt. -/
theorem process_tool_call_resolved (G : Globals) (tc : ToolCallData) (s i : String)
    (f : ArgsDict → Except String JValue)
    (hn : tc.name = some s) (hs : s ≠ "") (hid : tc.id = some i) (hi : i ≠ "")
    (hg : G s = some (PyGlobal.callable f)) :
    process_tool_call G tc =
      (match f (tc.args.getD []) with
       | Except.ok out => Message.function (json_dumps out) s i
       | Except.error e =>
         Message.function ("Ошибка при выполнении инструмента " ++ s ++ ": " ++ e) s i) := by
  unfold process_tool_call
  rw [hn, hid]
  have hbs : (s == "") = false := by simp [hs]
  have hbi : (i == "") = false := by simp [hi]
  simp only [truthy, hbs, hbi, Bool.not_false, Bool.not_true, Bool.or_false,
    Option.getD_some, if_false, Bool.false_eq_true, ite_false]
  rw [hg]

/-- Successful invocation: the ToolResult wraps the serialized output and
carries the tool name and the originating call id. -/
theorem process_tool_call_exec_ok (G : Globals) (tc : ToolCallData) (s i : String)
    (f : ArgsDict → Except String JValue) (out : JValue)
    (hn : tc.name = some s) (hs : s ≠ "") (hid : tc.id = some i) (hi : i ≠ "")
    (hg : G s = some (PyGlobal.callable f)) (hout : f (tc.args.getD []) = Except.ok out) :
    process_tool_call G tc = Message.function (json_dumps out) s i := by
  rw [process_tool_call_resolved G tc s i f hn hs hid hi hg, hout]

/-- Raising invocation: the exception is converted into an error ToolResult
whose content names the tool and carries the exception text. -/
theorem process_tool_call_exec_err (G : Globals) (tc : ToolCallData) (s i : String)
    (f : ArgsDict → Except String JValue) (e : String)
    (hn : tc.name = some s) (hs : s ≠ "") (hid : tc.id = some i) (hi : i ≠ "")
    (hg : G s = some (PyGlobal.callable f)) (herr : f (tc.args.getD []) = Except.error e) :
    process_tool_call G tc =
      Message.function ("Ошибка при выполнении инструмента " ++ s ++ ": " ++ e) s i := by
  rw [process_tool_call_resolved G tc s i f hn hs hid hi hg, herr]

/-- A name bound to nothing, or to a non-callable value, in the consulted
namespace yields the not-found error ToolResult. -/
theorem process_tool_call_not_found (G : Globals) (tc : ToolCallData) (s i : String)
    (hn : tc.name = some s) (hs : s ≠ "") (hid : tc.id = some i) (hi : i ≠ "")
    (hg : G s = none ∨ G s = some PyGlobal.notCallable) :
    process_tool_call G tc =
      Message.function
        ("Ошибка: Инструмент с именем \x27" ++ s ++ "\x27 не найден или не является функцией.")
        s i := by
  unfold process_tool_call
  rw [hn, hid]
  have hbs : (s == "") = false := by simp [hs]
  have hbi : (i == "") = false := by simp [hi]
  simp only [truthy, hbs, hbi, Bool.not_false, Bool.not_true, Bool.or_false,
    Option.getD_some, if_false, Bool.false_eq_true, ite_false]
  rcases hg with hg | hg <;> rw [hg]

/-- A call missing a truthy name or id takes the invalid-call branch. -/
theorem process_tool_call_invalid (G : Globals) (tc : ToolCallData)
    (hbad : truthy tc.name = false ∨ truthy tc.id = false) :
    process_tool_call G tc =
      Message.function
        ("Некорректные данные вызова инструмента (отсутствует имя или id): " ++ repr_tool_call tc)
        (truthyOr tc.name "unknown_tool_name_in_error")
        (truthyOr tc.id "unknown_tool_call_id_in_error") := by
  unfold process_tool_call
  rcases hbad with hbad | hbad <;> rw [hbad] <;> simp

/-- On a response with a non-empty tool-call list, `Agent.run` returns the
assistant message followed by the mapped loop-body results. -/
theorem Agent.run_ok_of_calls (G : Globals) (llm : List Message → Except String AIResponse)
    (state : List Message) (resp : AIResponse)
    (h : llm state = Except.ok resp) (hne : resp.tool_calls ≠ []) :
    Agent.run G llm state =
      Except.ok (resp.toMessage :: resp.tool_calls.map (process_tool_call G)) := by
  unfold Agent.run
  rw [h]
  have hemp : resp.tool_calls.isEmpty = false := by
    cases hc : resp.tool_calls with
    | nil => exact absurd hc hne
    | cons a l => rfl
  simp [hemp]

/-- Each mapped loop-body result counts as one ToolResult. -/
theorem count_tool_results_map (G : Globals) (l : List ToolCallData) :
    count_tool_results (l.map (process_tool_call G)) = l.length := by
  induction l with
  | nil => rfl
  | cons tc l ih =>
    show count_tool_results (process_tool_call G tc :: l.map (process_tool_call G)) = l.length + 1
    unfold count_tool_results at ih ⊢
    rw [List.filter_cons_of_pos (process_tool_call_isToolResult G tc), List.length_cons, ih]

/-- A fixed clock instant used to instantiate the ambient wall clock. -/
def t0 : UTCTime := ⟨2025, 5, 21, 6, 42, 0, 123456⟩

/-- The same second as `t0` at a different microsecond. -/
def t1 : UTCTime := ⟨2025, 5, 21, 6, 42, 0, 999999⟩

/-- A valid call of the registered tool, with no `args` key. -/
def tc_time : ToolCallData := ⟨some "get_current_time", none, some "call_1"⟩

/-- A call missing its `name` key. -/
def tc_missing : ToolCallData := ⟨none, some [], some "call_2"⟩

/-- A call naming the module-level class `Agent`, which is not a tool. -/
def tc_agent : ToolCallData := ⟨some "Agent", some [], some "call_3"⟩

/-- A call naming nothing bound in the module namespace. -/
def tc_unknown : ToolCallData := ⟨some "nonexistent_tool", some [], some "call_4"⟩

/-- A model response requesting all four calls above. -/
def resp_tools : AIResponse := ⟨"", [tc_time, tc_missing, tc_agent, tc_unknown]⟩

/-- A model response carrying a final answer and no tool calls. -/
def resp_final : AIResponse := ⟨"Сейчас 06:42 UTC.", []⟩

/-- An external model producing `resp_tools`. -/
def llm_tools : List Message → Except String AIResponse := fun _ => Except.ok resp_tools

/-- An external model producing `resp_final`. -/
def llm_final : List Message → Except String AIResponse := fun _ => Except.ok resp_final

/-- An external model whose invocation raises. -/
def llm_fail : List Message → Except String AIResponse := fun _ => Except.error "ModelInvocationError"

/-- The seeded conversation state. -/
def state0 : List Message := [Message.human "Который час?"]

/-- C1: for every model response carrying a list of ToolCalls, `Agent.run`
returns the assistant message followed by one produced message per ToolCall,
in order; the number of ToolResult messages in the appended batch equals the
number of ToolCalls, whatever branch each call takes, so no call is silently
dropped. -/
theorem run_produces_one_toolresult_per_call
    (G : Globals) (llm : List Message → Except String AIResponse)
    (state : List Message) (resp : AIResponse)
    (h : llm state = Except.ok resp) (hne : resp.tool_calls ≠ []) :
    Agent.run G llm state =
      Except.ok (resp.toMessage :: resp.tool_calls.map (process_tool_call G)) ∧
    (resp.tool_calls.map (process_tool_call G)).length = resp.tool_calls.length ∧
    count_tool_results (resp.toMessage :: resp.tool_calls.map (process_tool_call G)) =
      resp.tool_calls.length := by
  refine ⟨Agent.run_ok_of_calls G llm state resp h hne, List.length_map _ _, ?_⟩
  show count_tool_results (Message.ai resp.content resp.tool_calls ::
    resp.tool_calls.map (process_tool_call G)) = resp.tool_calls.length
  unfold count_tool_results
  rw [List.filter_cons_of_neg (by simp [Message.isToolResult])]
  exact count_tool_results_map G resp.tool_calls

/-- Closed instance of C1 on a four-call response exercising the valid,
missing-name, non-tool-callable and unknown-name branches. -/
theorem run_produces_one_toolresult_per_call_witness :
    Agent.run (module_globals t0) llm_tools state0 =
      Except.ok (resp_tools.toMessage ::
        resp_tools.tool_calls.map (process_tool_call (module_globals t0))) ∧
    (resp_tools.tool_calls.map (process_tool_call (module_globals t0))).length =
      resp_tools.tool_calls.length ∧
    count_tool_results (resp_tools.toMessage ::
        resp_tools.tool_calls.map (process_tool_call (module_globals t0))) =
      resp_tools.tool_calls.length :=
  run_produces_one_toolresult_per_call (module_globals t0) llm_tools state0 resp_tools
    rfl (by decide)

/-- C2: a call (truthy name and id) whose resolved executable raises is
converted into a ToolResult whose content carries the tool name and the
exception text; the step still completes with the full batch (every other
call still attempted) and the router loops back to the agent, i.e. the step
is not terminal. -/
theorem run_exec_error_isolated
    (G : Globals) (llm : List Message → Except String AIResponse)
    (state : List Message) (resp : AIResponse) (tc : ToolCallData)
    (s i e : String) (f : ArgsDict → Except String JValue)
    (h : llm state = Except.ok resp) (htc : tc ∈ resp.tool_calls)
    (hn : tc.name = some s) (hs : s ≠ "") (hid : tc.id = some i) (hi : i ≠ "")
    (hg : G s = some (PyGlobal.callable f))
    (herr : f (tc.args.getD []) = Except.error e) :
    Agent.run G llm state =
      Except.ok (resp.toMessage :: resp.tool_calls.map (process_tool_call G)) ∧
    process_tool_call G tc =
      Message.function ("Ошибка при выполнении инструмента " ++ s ++ ": " ++ e) s i ∧
    (resp.tool_calls.map (process_tool_call G)).length = resp.tool_calls.length ∧
    should_continue (state ++ resp.toMessage :: resp.tool_calls.map (process_tool_call G)) =
      some Route.agent := by
  have hne : resp.tool_calls ≠ [] := List.ne_nil_of_mem htc
  exact ⟨Agent.run_ok_of_calls G llm state resp h hne,
    process_tool_call_exec_err G tc s i f e hn hs hid hi hg herr,
    List.length_map _ _,
    should_continue_after_results G state resp.toMessage resp.tool_calls hne⟩

/-- Closed instance of C2: the call naming the non-tool callable `Agent`
raises on invocation and is isolated into an error ToolResult. -/
theorem run_exec_error_isolated_witness :
    Agent.run (module_globals t0) llm_tools state0 =
      Except.ok (resp_tools.toMessage ::
        resp_tools.tool_calls.map (process_tool_call (module_globals t0))) ∧
    process_tool_call (module_globals t0) tc_agent =
      Message.function ("Ошибка при выполнении инструмента " ++ "Agent" ++ ": " ++ exc_message "Agent")
        "Agent" "call_3" ∧
    (resp_tools.tool_calls.map (process_tool_call (module_globals t0))).length =
      resp_tools.tool_calls.length ∧
    should_continue (state0 ++ resp_tools.toMessage ::
        resp_tools.tool_calls.map (process_tool_call (module_globals t0))) =
      some Route.agent :=
  run_exec_error_isolated (module_globals t0) llm_tools state0 resp_tools tc_agent
    "Agent" "call_3" (exc_message "Agent") (non_tool_invoke "Agent")
    rfl (by decide) rfl (by decide) rfl (by decide) rfl rfl

/-- C3 counterexample: the name `Agent` is not a registered tool (the only
registered tool is `get_current_time`), yet the step resolves it through the
module global namespace and attempts to execute it: the produced ToolResult
is the execution-error message, not the not-found message that the
registry-based resolution described by the spec produces, so resolution does
consult the process-wide symbol table. -/
theorem resolution_consults_globals_counterexample :
    process_tool_call (module_globals t0) tc_agent =
      Message.function ("Ошибка при выполнении инструмента Agent: " ++ exc_message "Agent")
        "Agent" "call_3" ∧
    process_tool_call_spec t0 tc_agent =
      Message.function
        ("Ошибка: Инструмент с именем \x27Agent\x27 не найден или не является функцией.")
        "Agent" "call_3" ∧
    process_tool_call (module_globals t0) tc_agent ≠ process_tool_call_spec t0 tc_agent := by
  refine ⟨by decide, by decide, by decide⟩

/-- C3 (amended): resolution consults the module global namespace
(`globals().get`); for every call (truthy name and id) whose name is not
bound to a callable there, the step produces, without raising, a ToolResult
whose content is an error string naming the missing tool. -/
theorem unregistered_name_error_result
    (G : Globals) (llm : List Message → Except String AIResponse)
    (state : List Message) (resp : AIResponse) (tc : ToolCallData) (s i : String)
    (h : llm state = Except.ok resp) (htc : tc ∈ resp.tool_calls)
    (hn : tc.name = some s) (hs : s ≠ "") (hid : tc.id = some i) (hi : i ≠ "")
    (hg : G s = none ∨ G s = some PyGlobal.notCallable) :
    Agent.run G llm state =
      Except.ok (resp.toMessage :: resp.tool_calls.map (process_tool_call G)) ∧
    process_tool_call G tc =
      Message.function
        ("Ошибка: Инструмент с именем \x27" ++ s ++ "\x27 не найден или не является функцией.")
        s i := by
  exact ⟨Agent.run_ok_of_calls G llm state resp h (List.ne_nil_of_mem htc),
    process_tool_call_not_found G tc s i hn hs hid hi hg⟩

/-- Closed instance of amended C3: `nonexistent_tool` is bound to nothing in
the module namespace and yields the not-found error ToolResult. -/
theorem unregistered_name_error_result_witness :
    Agent.run (module_globals t0) llm_tools state0 =
      Except.ok (resp_tools.toMessage ::
        resp_tools.tool_calls.map (process_tool_call (module_globals t0))) ∧
    process_tool_call (module_globals t0) tc_unknown =
      Message.function
        ("Ошибка: Инструмент с именем \x27" ++ "nonexistent_tool" ++ "\x27 не найден или не является функцией.")
        "nonexistent_tool" "call_4" :=
  unregistered_name_error_result (module_globals t0) llm_tools state0 resp_tools tc_unknown
    "nonexistent_tool" "call_4" rfl (by decide) rfl (by decide) rfl (by decide)
    (Or.inl rfl)

/-- C4: the router returns END exactly for a trailing assistant message with
no tool calls or a trailing message of any type other than assistant and
tool-result; a trailing ToolResult or assistant message with tool calls
routes back to the agent. -/
theorem should_continue_route_cases (ms : List Message) (m : Message) :
    (should_continue (ms ++ [m]) = some Route.END ↔
      ((∃ c, m = Message.ai c []) ∨
        ((∀ c tcs, m ≠ Message.ai c tcs) ∧ (∀ c n i, m ≠ Message.function c n i)))) ∧
    (should_continue (ms ++ [m]) = some Route.agent ↔
      ((∃ c n i, m = Message.function c n i) ∨
        (∃ c tcs, tcs ≠ [] ∧ m = Message.ai c tcs))) := by
  have hlast : (ms ++ [m]).getLast? = some m := by
    rw [List.getLast?_append_cons]
    rfl
  simp only [should_continue, hlast]
  cases m with
  | human c => simp
  | ai c tcs =>
    cases tcs with
    | nil => simp
    | cons a l => simp
  | function c n i => simp
  | other c => simp

/-- C5: under the graph's append reducer, the step output is the previous
state with the batch appended — the assistant message followed by the
per-call results in the exact order of the ToolCall list — and the result of
a valid successfully-executed call carries the serialized output, the tool
name and the originating call id. -/
theorem agent_step_appends_in_order
    (G : Globals) (llm : List Message → Except String AIResponse)
    (state : List Message) (resp : AIResponse) (tc : ToolCallData)
    (s i : String) (f : ArgsDict → Except String JValue) (out : JValue)
    (h : llm state = Except.ok resp) (htc : tc ∈ resp.tool_calls)
    (hn : tc.name = some s) (hs : s ≠ "") (hid : tc.id = some i) (hi : i ≠ "")
    (hg : G s = some (PyGlobal.callable f))
    (hout : f (tc.args.getD []) = Except.ok out) :
    agent_step G llm state =
      Except.ok (state ++ resp.toMessage :: resp.tool_calls.map (process_tool_call G)) ∧
    process_tool_call G tc = Message.function (json_dumps out) s i := by
  constructor
  · unfold agent_step
    rw [Agent.run_ok_of_calls G llm state resp h (List.ne_nil_of_mem htc)]
    rfl
  · exact process_tool_call_exec_ok G tc s i f out hn hs hid hi hg hout

/-- Closed instance of C5: the valid `get_current_time` call in the batch
yields the serialized time dict tagged with its call id. -/
theorem agent_step_appends_in_order_witness :
    agent_step (module_globals t0) llm_tools state0 =
      Except.ok (state0 ++ resp_tools.toMessage ::
        resp_tools.tool_calls.map (process_tool_call (module_globals t0))) ∧
    process_tool_call (module_globals t0) tc_time =
      Message.function (json_dumps (get_current_time t0)) "get_current_time" "call_1" :=
  agent_step_appends_in_order (module_globals t0) llm_tools state0 resp_tools tc_time
    "get_current_time" "call_1" (fun _ => Except.ok (get_current_time t0)) (get_current_time t0)
    rfl (by decide) rfl (by decide) rfl (by decide) rfl rfl

/-- C6: a call whose name or id is missing (not truthy) does not abort the
step: the whole batch is still produced, and that call's ToolResult carries
the descriptive error with placeholder identifiers substituted for whichever
of name and id is missing. -/
theorem invalid_call_placeholder_result
    (G : Globals) (llm : List Message → Except String AIResponse)
    (state : List Message) (resp : AIResponse) (tc : ToolCallData)
    (h : llm state = Except.ok resp) (htc : tc ∈ resp.tool_calls)
    (hbad : truthy tc.name = false ∨ truthy tc.id = false) :
    Agent.run G llm state =
      Except.ok (resp.toMessage :: resp.tool_calls.map (process_tool_call G)) ∧
    (resp.tool_calls.map (process_tool_call G)).length = resp.tool_calls.length ∧
    process_tool_call G tc =
      Message.function
        ("Некорректные данные вызова инструмента (отсутствует имя или id): " ++ repr_tool_call tc)
        (truthyOr tc.name "unknown_tool_name_in_error")
        (truthyOr tc.id "unknown_tool_call_id_in_error") := by
  exact ⟨Agent.run_ok_of_calls G llm state resp h (List.ne_nil_of_mem htc),
    List.length_map _ _,
    process_tool_call_invalid G tc hbad⟩

/-- Closed instance of C6: the nameless call in the batch gets the
invalid-call error with the name placeholder, and the other calls are still
processed. -/
theorem invalid_call_placeholder_result_witness :
    Agent.run (module_globals t0) llm_tools state0 =
      Except.ok (resp_tools.toMessage ::
        resp_tools.tool_calls.map (process_tool_call (module_globals t0))) ∧
    (resp_tools.tool_calls.map (process_tool_call (module_globals t0))).length =
      resp_tools.tool_calls.length ∧
    process_tool_call (module_globals t0) tc_missing =
      Message.function
        ("Некорректные данные вызова инструмента (отсутствует имя или id): " ++ repr_tool_call tc_missing)
        (truthyOr tc_missing.name "unknown_tool_name_in_error")
        (truthyOr tc_missing.id "unknown_tool_call_id_in_error") :=
  invalid_call_placeholder_result (module_globals t0) llm_tools state0 resp_tools tc_missing
    rfl (by decide) (Or.inl rfl)

/-- Two instants within the same second: all calendar fields agree and only
the microsecond component may differ. -/
def sameSecond (t t2 : UTCTime) : Prop :=
  t.year = t2.year ∧ t.month = t2.month ∧ t.day = t2.day ∧
  t.hour = t2.hour ∧ t.minute = t2.minute ∧ t.second = t2.second

/-- C7: the Time Tool returns a dict with the single key `utc` whose value
ends in the `Z` suffix at second precision, and two invocations within the
same second yield identical `utc` values. -/
theorem time_tool_format (t t2 : UTCTime) (h : sameSecond t t2) :
    get_current_time t = JValue.obj [("utc", utc_value t)] ∧
    (utc_value t).data.getLast? = some 'Z' ∧
    get_current_time t = get_current_time t2 := by
  refine ⟨rfl, ?_, ?_⟩
  · rw [utc_value_data, List.getLast?_append_cons]
    rfl
  · rcases t with ⟨y, mo, d, hh, mi, sec, us⟩
    rcases t2 with ⟨y2, mo2, d2, hh2, mi2, sec2, us2⟩
    obtain ⟨e1, e2, e3, e4, e5, e6⟩ := h
    dsimp at e1 e2 e3 e4 e5 e6
    subst e1; subst e2; subst e3; subst e4; subst e5; subst e6
    rfl

/-- Closed instance of C7 at two instants of the same second differing in
the microsecond component. -/
theorem time_tool_format_witness :
    get_current_time t0 = JValue.obj [("utc", utc_value t0)] ∧
    (utc_value t0).data.getLast? = some 'Z' ∧
    get_current_time t0 = get_current_time t1 :=
  time_tool_format t0 t1 ⟨rfl, rfl, rfl, rfl, rfl, rfl⟩

/-- C8: a model response with zero tool calls is appended to state as the
single final assistant message and the router then takes the END edge. -/
theorem final_answer_step_terminal
    (G : Globals) (llm : List Message → Except String AIResponse)
    (state : List Message) (resp : AIResponse)
    (h : llm state = Except.ok resp) (hz : resp.tool_calls = []) :
    agent_step G llm state = Except.ok (state ++ [resp.toMessage]) ∧
    should_continue (state ++ [resp.toMessage]) = some Route.END := by
  constructor
  · unfold agent_step Agent.run
    rw [h]
    simp [hz, Except.map]
  · have hform : should_continue (state ++ [resp.toMessage]) =
        some (if resp.tool_calls.isEmpty then Route.END else Route.agent) := by
      simp only [should_continue, List.getLast?_append_cons]
      rfl
    rw [hform, hz]
    rfl

/-- Closed instance of C8 on the final-answer response. -/
theorem final_answer_step_terminal_witness :
    agent_step (module_globals t0) llm_final state0 =
      Except.ok (state0 ++ [resp_final.toMessage]) ∧
    should_continue (state0 ++ [resp_final.toMessage]) = some Route.END :=
  final_answer_step_terminal (module_globals t0) llm_final state0 resp_final rfl rfl

/-- C9: an exception escaping `self.llm.invoke` is not caught inside the
step and not retried: `Agent.run` propagates the same error and the step
yields no updated state, so nothing is appended. -/
theorem model_invocation_failure_propagates
    (G : Globals) (llm : List Message → Except String AIResponse)
    (state : List Message) (e : String)
    (h : llm state = Except.error e) :
    Agent.run G llm state = Except.error e ∧
    agent_step G llm state = Except.error e := by
  have hrun : Agent.run G llm state = Except.error e := by
    unfold Agent.run
    rw [h]
  exact ⟨hrun, by unfold agent_step; rw [hrun]; rfl⟩

/-- Closed instance of C9 on a failing model invocation. -/
theorem model_invocation_failure_propagates_witness :
    Agent.run (module_globals t0) llm_fail state0 = Except.error "ModelInvocationError" ∧
    agent_step (module_globals t0) llm_fail state0 = Except.error "ModelInvocationError" :=
  model_invocation_failure_propagates (module_globals t0) llm_fail state0
    "ModelInvocationError" rfl

/-- C10: a call carrying a truthy name and id but no `args` key is treated
as valid: it behaves exactly as the same call with an empty argument
mapping, and a resolved tool succeeding on the empty mapping produces the
ordinary success ToolResult rather than the invalid-call error. -/
theorem missing_args_empty_mapping
    (G : Globals) (s i : String) (f : ArgsDict → Except String JValue) (out : JValue)
    (hs : s ≠ "") (hi : i ≠ "")
    (hg : G s = some (PyGlobal.callable f)) (hout : f [] = Except.ok out) :
    process_tool_call G ⟨some s, none, some i⟩ =
      process_tool_call G ⟨some s, some [], some i⟩ ∧
    process_tool_call G ⟨some s, none, some i⟩ = Message.function (json_dumps out) s i := by
  have h1 : process_tool_call G ⟨some s, none, some i⟩ = Message.function (json_dumps out) s i :=
    process_tool_call_exec_ok G ⟨some s, none, some i⟩ s i f out rfl hs rfl hi hg hout
  have h2 : process_tool_call G ⟨some s, some [], some i⟩ = Message.function (json_dumps out) s i :=
    process_tool_call_exec_ok G ⟨some s, some [], some i⟩ s i f out rfl hs rfl hi hg hout
  exact ⟨h1.trans h2.symm, h1⟩

/-- Closed instance of C10: the `get_current_time` call without an `args`
key executes on the empty mapping and succeeds. -/
theorem missing_args_empty_mapping_witness :
    process_tool_call (module_globals t0) ⟨some "get_current_time", none, some "call_1"⟩ =
      process_tool_call (module_globals t0) ⟨some "get_current_time", some [], some "call_1"⟩ ∧
    process_tool_call (module_globals t0) ⟨some "get_current_time", none, some "call_1"⟩ =
      Message.function (json_dumps (get_current_time t0)) "get_current_time" "call_1" :=
  missing_args_empty_mapping (module_globals t0) "get_current_time" "call_1"
    (fun _ => Except.ok (get_current_time t0)) (get_current_time t0)
    (by decide) (by decide) rfl rfl
